import Mathlib

/-
Verification of the stacktrace error-annotation library.

The library builds linked chains of error values.  A Go `error` interface
value is either nil, a `*Stacktrace` node, or some other ("foreign") error
produced outside the library.  `GoError` embeds exactly these three shapes:
`nilError` is the nil interface value, `stacktrace` carries the six fields
of the `Stacktrace` struct (Message, Cause, Code, File, Function, Line),
and `foreign` is any other error, observed only through its `Error()` text.
-/

inductive GoError : Type where
  | nilError : GoError
  | stacktrace (message : String) (cause : GoError) (code : Nat)
      (file : String) (function : String) (line : Int) : GoError
  | foreign (text : String) : GoError
deriving DecidableEq, Repr

/-- ErrorCode is Go `uint16`; all values handled by the library are copies
or comparisons of caller-supplied uint16 values, so they are embedded as
the corresponding naturals (below 2^16 at every call site). -/
abbrev ErrorCode := Nat

/-- NoCode is `math.MaxUint16`, the sentinel for "no code attached". -/
def NoCode : ErrorCode := 65535

/-- Models Go `fmt.Sprintf` applied to a format string with zero variadic
arguments, which is how every construction site in this development calls
it: literal characters are copied; the directive percent-percent prints a
single percent sign; a percent sign ending the format prints the Go
diagnostic "%!(NOVERB)"; any other directive has no argument to consume
and prints the Go diagnostic "%!v(MISSING)" for its verb character v.
Flags, widths, precisions and argument indexes inside directives are not
modelled; no input in this development contains them. -/
def goSprintfChars : List Char → List Char
  | [] => []
  | '%' :: rest =>
      match rest with
      | [] => "%!(NOVERB)".data
      | '%' :: rest2 => '%' :: goSprintfChars rest2
      | c :: rest2 => '%' :: '!' :: c :: ("(MISSING)".data ++ goSprintfChars rest2)
  | c :: rest => c :: goSprintfChars rest

def goSprintf (fmtStr : String) : String := String.mk (goSprintfChars fmtStr.data)

/-- GetCode (stacktrace.go): the Code field of a `*Stacktrace`, and NoCode
when the type assertion fails (nil or foreign error). -/
def GetCode : GoError → ErrorCode
  | .stacktrace _ _ code _ _ _ => code
  | _ => NoCode

/-- GetCause (stacktrace.go): the Cause field of a `*Stacktrace`; any
other error is returned unchanged. -/
def GetCause : GoError → GoError
  | .stacktrace _ cause _ _ _ _ => cause
  | e => e

/-- GetMessage (stacktrace.go): `fmt.Errorf(err.Message)` on a node — note
the stored message is used as a format string with no arguments — and the
error itself otherwise.  `fmt.Errorf` yields a plain (foreign) error whose
text is the Sprintf result. -/
def GetMessage : GoError → GoError
  | .stacktrace m _ _ _ _ _ => .foreign (goSprintf m)
  | e => e

/-- Outcome of the call-site capture inside `create`: `runtime.Caller(2)`
may fail (outer none); on success it yields the file path after the
CleanPath transform, the line number, and the `runtime.FuncForPC` lookup,
which may itself return nil (inner none) or the `shortFuncName` string.
CleanPath and shortFuncName run outside the chain data model, so file and
function arrive here as final strings. -/
abbrev CallerInfo := Option (String × Int × Option String)

/-- create (stacktrace.go): allocates the node.  A NoCode argument is
replaced at construction time by the code of the cause via GetCode; the
message is formatted eagerly; the location fields stay at their zero
values ("", "", 0) at whichever point the runtime capture stops. -/
def create (cause : GoError) (code : ErrorCode) (msg : String)
    (caller : CallerInfo) : GoError :=
  let code := if code = NoCode then GetCode cause else code
  match caller with
  | none => .stacktrace (goSprintf msg) cause code "" "" 0
  | some (file, line, none) => .stacktrace (goSprintf msg) cause code file "" line
  | some (file, line, some function) =>
      .stacktrace (goSprintf msg) cause code file function line

def NewError (msg : String) (caller : CallerInfo) : GoError :=
  create .nilError NoCode msg caller

def NewErrorWithCode (code : ErrorCode) (msg : String) (caller : CallerInfo) : GoError :=
  create .nilError code msg caller

/-- Propagate (stacktrace.go): nil cause short-circuits to nil. -/
def Propagate (cause : GoError) (msg : String) (caller : CallerInfo) : GoError :=
  if cause = .nilError then .nilError else create cause NoCode msg caller

/-- PropagateWithCode (stacktrace.go): nil cause short-circuits to nil. -/
def PropagateWithCode (cause : GoError) (code : ErrorCode) (msg : String)
    (caller : CallerInfo) : GoError :=
  if cause = .nilError then .nilError else create cause code msg caller

/-- NewMessageWithCode (stacktrace.go): node built directly with no cause
and no location capture. -/
def NewMessageWithCode (code : ErrorCode) (msg : String) : GoError :=
  .stacktrace (goSprintf msg) .nilError code "" "" 0

/-- RootCause (cause.go): walk Cause links while the value is a node;
a node whose Cause is nil yields `errors.New(st.Message)`, a plain error
carrying the message verbatim; a non-node value (foreign error or nil) is
returned as-is. -/
def RootCause : GoError → GoError
  | .stacktrace message cause _ _ _ _ =>
      match cause with
      | .nilError => .foreign message
      | c => RootCause c
  | e => e

/-- ExitCode (stacktrace.go): method on `*Stacktrace`; reads only the Code
field.  The receiver is always a node, so the remaining shapes (on which
Go would fault) are given the default branch value. -/
def ExitCode : GoError → Int
  | .stacktrace _ _ code _ _ _ => if code = NoCode then 1 else Int.ofNat code
  | _ => 1

/-- Models `strings.HasSuffix(str, "\n")`: the newline byte 0x0A occurs in
UTF-8 only as the one-byte encoding of the newline character, so the byte
suffix test coincides with a test on the last character. -/
def hasSuffixNewline (s : String) : Bool := s.data.getLast? = some '\n'

/-- The `newline` closure of formatFull (stacktrace.go): append a newline
only when the buffer is non-empty and does not already end in one. -/
def newlineIfNeeded (str : String) : String :=
  if str ≠ "" ∧ ¬ hasSuffixNewline str then str ++ "\n" else str

/-- One loop iteration of formatFull up to the Cause handling: append the
node message, then, when File is non-empty, the location line (with the
parenthesised Function omitted when Function is empty).  `%v` renders the
strings verbatim and the int in decimal. -/
def formatFullNode (msg file function : String) (line : Int) (str : String) : String :=
  let str := str ++ msg
  if file ≠ "" then
    if function = "" then
      newlineIfNeeded str ++ " --- at " ++ file ++ ":" ++ toString line ++ " ---"
    else
      newlineIfNeeded str ++ " --- at " ++ file ++ ":" ++ toString line
        ++ " (" ++ function ++ ") ---"
  else str

/-- The Cause handling of formatFull plus the remaining loop iterations:
nil Cause ends the loop; a foreign Cause emits the marker and the foreign
error text inline; a node Cause emits the marker only when its message is
non-empty and then runs the next iteration on that node. -/
def formatFullCause : GoError → String → String
  | .nilError, str => str
  | .foreign t, str => newlineIfNeeded str ++ "Caused by: " ++ t
  | .stacktrace m mc _ mf mfn ml, str =>
      let str := newlineIfNeeded str
      let str := if m ≠ "" then str ++ "Caused by: " else str
      formatFullCause mc (formatFullNode m mf mfn ml str)

/-- formatFull (stacktrace.go): first iteration on the head node, then the
Cause handling.  Go only calls this on a `*Stacktrace`. -/
def formatFull : GoError → String
  | .stacktrace msg cause _ file function line =>
      formatFullCause cause (formatFullNode msg file function line "")
  | _ => ""

/-- The `concat` closure of formatBrief (stacktrace.go): insert the
separator only between two non-empty pieces. -/
def concatBrief (str msg : String) : String :=
  let str := if str ≠ "" ∧ msg ≠ "" then str ++ ": " else str
  str ++ msg

/-- The loop of formatBrief after the head node: descend while the Cause
is a node, concatenating messages; a foreign terminal contributes its own
error text; a nil terminal contributes nothing. -/
def formatBriefCause : GoError → String → String
  | .stacktrace m mc _ _ _ _, str => formatBriefCause mc (concatBrief str m)
  | .foreign t, str => concatBrief str t
  | .nilError, str => str

/-- formatBrief (stacktrace.go): concat the head message into the empty
buffer, then the loop over the causes.  Go only calls this on a
`*Stacktrace`. -/
def formatBrief : GoError → String
  | .stacktrace msg cause _ _ _ _ => formatBriefCause cause (concatBrief "" msg)
  | _ => ""

/-- The two values of the package-level Format type. -/
inductive Format : Type where
  | FormatFull : Format
  | FormatBrief : Format
deriving DecidableEq, Repr

/-- The map lookup `map[Format]func(*Stacktrace) string{...}[DefaultFormat]`
applied to the node. -/
def formatByMode : Format → GoError → String
  | .FormatFull, st => formatFull st
  | .FormatBrief, st => formatBrief st

/-- The text-selection logic of `(*Stacktrace).Format` (stacktrace.go):
the flag '+' without '#' on verb 's' forces full output, the flag '#'
without '+' on verb 's' forces brief output, anything else uses the
process-wide DefaultFormat (threaded here as a parameter).  The second
pass that re-applies width/precision/flags to the selected text is not
modelled. -/
def FormatText (st : GoError) (plusFlag hashFlag : Bool) (verb : Char)
    (defaultFormat : Format) : String :=
  if plusFlag = true ∧ hashFlag = false ∧ verb = 's' then formatFull st
  else if hashFlag = true ∧ plusFlag = false ∧ verb = 's' then formatBrief st
  else formatByMode defaultFormat st

/-
Spec-side definitions.  These follow the wording of the claims, to be
compared with the source-side definitions above.
-/

/-- One public construction step: the code handed to the constructor
(NoCode when the constructor was NewError or Propagate, which supply no
explicit code), the message, and the call-site capture outcome. -/
structure NodeSpec : Type where
  code : ErrorCode
  msg : String
  caller : CallerInfo
deriving DecidableEq, Repr

/-- A chain built via the public constructors, head NodeSpec first: the
last entry is the root node (built with a nil cause, as NewError and
NewErrorWithCode do) and every earlier entry wraps the chain built from
the entries after it (as Propagate and PropagateWithCode do). -/
def buildChain : NodeSpec → List NodeSpec → GoError
  | s, [] => NewErrorWithCode s.code s.msg s.caller
  | s, r :: rest => PropagateWithCode (buildChain r rest) s.code s.msg s.caller

/-- Spec-side: the code supplied at the first node, from the head, that
was given an explicit code (a code other than the NoCode sentinel), or
NoCode if no node was. -/
def firstExplicitCode : List NodeSpec → ErrorCode
  | [] => NoCode
  | s :: rest => if s.code ≠ NoCode then s.code else firstExplicitCode rest

/-- Spec-side: the error is a chain consisting only of nodes, whose
deepest node has an absent cause. -/
def isPureChain : GoError → Bool
  | .stacktrace _ .nilError _ _ _ _ => true
  | .stacktrace _ c _ _ _ _ => isPureChain c
  | _ => false

/-- Spec-side: the message stored at the deepest node of a chain. -/
def deepestMessage : GoError → String
  | .stacktrace m .nilError _ _ _ _ => m
  | .stacktrace _ c _ _ _ _ => deepestMessage c
  | .foreign t => t
  | .nilError => ""

/-- Spec-side: the text of the foreign error terminating the chain, when
the chain of nodes ends in a foreign (non-node) cause. -/
def terminalForeign : GoError → Option String
  | .stacktrace _ c _ _ _ _ =>
      match c with
      | .foreign t => some t
      | .nilError => none
      | c2 => terminalForeign c2
  | _ => none

/-- Spec-side: the brief-mode segments of a chain, head to root: each
node's message, then the terminal foreign cause's text if there is one. -/
def causeSegments : GoError → List String
  | .stacktrace m mc _ _ _ _ => m :: causeSegments mc
  | .foreign t => [t]
  | .nilError => []

def briefSegments : GoError → List String
  | .stacktrace m c _ _ _ _ => m :: causeSegments c
  | _ => []

/-- Spec-side: concatenate the non-empty segments joined by the separator
": ", empty segments contributing no separator. -/
def joinColon : List String → String
  | [] => ""
  | m :: rest =>
      let r := joinColon rest
      if m = "" then r
      else if r = "" then m
      else m ++ ": " ++ r

/-
Helper lemmas shared by the claim theorems.
-/

theorem append_ne_empty_left (a b : String) (h : a ≠ "") : a ++ b ≠ "" := by
  intro hab
  apply h
  have h2 := congrArg String.data hab
  simp at h2
  exact String.ext h2.1

theorem concatBrief_empty_left (m : String) : concatBrief "" m = m := by
  simp [concatBrief]

theorem concatBrief_empty_right (s : String) : concatBrief s "" = s := by
  simp [concatBrief]

theorem concatBrief_pos (s m : String) (hs : s ≠ "") (hm : m ≠ "") :
    concatBrief s m = s ++ ": " ++ m := by
  simp [concatBrief, hs, hm]

theorem concatBrief_concat (str m r : String) :
    concatBrief (concatBrief str m) r =
      concatBrief str (if m = "" then r else if r = "" then m else m ++ ": " ++ r) := by
  by_cases hm : m = ""
  · subst hm
    rw [concatBrief_empty_right, if_pos rfl]
  · rw [if_neg hm]
    by_cases hr : r = ""
    · subst hr
      rw [concatBrief_empty_right, if_pos rfl]
    · rw [if_neg hr]
      by_cases hs : str = ""
      · subst hs
        rw [concatBrief_empty_left, concatBrief_empty_left,
          concatBrief_pos m r hm hr]
      · rw [concatBrief_pos str m hs hm,
          concatBrief_pos _ r (append_ne_empty_left _ _ (append_ne_empty_left _ _ hs)) hr,
          concatBrief_pos str _ hs (append_ne_empty_left _ _ (append_ne_empty_left _ _ hm))]
        simp [String.append_assoc]

theorem getCode_create (c : GoError) (cd : ErrorCode) (m : String) (k : CallerInfo) :
    GetCode (create c cd m k) = if cd = NoCode then GetCode c else cd := by
  rcases k with _ | ⟨f, l, fn⟩
  · simp [create, GetCode]
  · rcases fn with _ | fn <;> simp [create, GetCode]

theorem create_ne_nilError (c : GoError) (cd : ErrorCode) (m : String) (k : CallerInfo) :
    create c cd m k ≠ .nilError := by
  rcases k with _ | ⟨f, l, fn⟩
  · simp [create]
  · rcases fn with _ | fn <;> simp [create]

theorem getCause_create (c : GoError) (cd : ErrorCode) (m : String) (k : CallerInfo) :
    GetCause (create c cd m k) = c := by
  rcases k with _ | ⟨f, l, fn⟩
  · simp [create, GetCause]
  · rcases fn with _ | fn <;> simp [create, GetCause]

/-- NewError is the code-free instance of NewErrorWithCode. -/
theorem newError_eq_withCode (m : String) (k : CallerInfo) :
    NewError m k = NewErrorWithCode NoCode m k := rfl

/-- Propagate is the code-free instance of PropagateWithCode. -/
theorem propagate_eq_withCode (c : GoError) (m : String) (k : CallerInfo) :
    Propagate c m k = PropagateWithCode c NoCode m k := rfl

theorem buildChain_ne_nilError (s : NodeSpec) (rest : List NodeSpec) :
    buildChain s rest ≠ .nilError := by
  induction rest generalizing s with
  | nil => exact create_ne_nilError _ _ _ _
  | cons r rest ih =>
      simp only [buildChain, PropagateWithCode]
      rw [if_neg (ih r)]
      exact create_ne_nilError _ _ _ _

theorem formatBriefCause_join (c : GoError) :
    ∀ str, formatBriefCause c str = concatBrief str (joinColon (causeSegments c)) := by
  induction c with
  | nilError =>
      intro str
      simp [formatBriefCause, causeSegments, joinColon, concatBrief_empty_right]
  | foreign t =>
      intro str
      by_cases ht : t = "" <;>
        simp [formatBriefCause, causeSegments, joinColon, ht, concatBrief_empty_right]
  | stacktrace m mc mcd mf mfn ml ih =>
      intro str
      rw [show formatBriefCause (.stacktrace m mc mcd mf mfn ml) str
            = formatBriefCause mc (concatBrief str m) from rfl,
        ih, concatBrief_concat,
        show causeSegments (.stacktrace m mc mcd mf mfn ml) = m :: causeSegments mc from rfl]
      simp only [joinColon]

/-
Example chains used in closed statements.  Every node carries a non-empty
location so that the brief-mode statements also witness that locations
never reach brief output.
-/

def exChainABC : GoError :=
  .stacktrace "A" (.stacktrace "B" (.stacktrace "C" .nilError 7 "c.go" "Fc" 3)
    7 "b.go" "Fb" 2) 7 "a.go" "Fa" 1

def exChainAEmptyC : GoError :=
  .stacktrace "A" (.stacktrace "" (.stacktrace "C" .nilError 7 "c.go" "Fc" 3)
    7 "b.go" "Fb" 2) 7 "a.go" "Fa" 1

def exChainPure : GoError :=
  .stacktrace "A" (.stacktrace "B" (.stacktrace "C" .nilError 1 "c.go" "Fc" 3)
    2 "b.go" "Fb" 2) 3 "a.go" "Fa" 1

def exChainForeign : GoError :=
  .stacktrace "A" (.stacktrace "B" (.foreign "io fail") 1 "b.go" "Fb" 2)
    2 "a.go" "Fa" 1

/-- C1: for every chain built via the public constructors, GetCode at the
head returns the code supplied at the first node from the head that was
constructed with an explicit code (one other than the NoCode sentinel),
NoCode if none was; the inheritance happens at construction time, create
copying the cause's stored code. -/
theorem c1_getCode_first_explicit (s : NodeSpec) (rest : List NodeSpec) :
    GetCode (buildChain s rest) = firstExplicitCode (s :: rest) := by
  induction rest generalizing s with
  | nil =>
      rw [show buildChain s [] = NewErrorWithCode s.code s.msg s.caller from rfl,
        NewErrorWithCode, getCode_create]
      by_cases h : s.code = NoCode <;> simp [firstExplicitCode, h, GetCode]
  | cons r rest ih =>
      rw [show buildChain s (r :: rest)
            = PropagateWithCode (buildChain r rest) s.code s.msg s.caller from rfl,
        PropagateWithCode, if_neg (buildChain_ne_nilError r rest), getCode_create, ih]
      by_cases h : s.code = NoCode <;> simp [firstExplicitCode, h]

/-- C2: Propagate and PropagateWithCode applied to a nil cause return nil
for every message, code and call-site outcome. -/
theorem c2_propagate_nil_is_nil (msg : String) (code : ErrorCode) (k1 k2 : CallerInfo) :
    Propagate .nilError msg k1 = .nilError ∧
      PropagateWithCode .nilError code msg k2 = .nilError := by
  exact ⟨by simp [Propagate], by simp [PropagateWithCode]⟩

/-- C3: RootCause on a chain of pure nodes returns a plain error carrying
the deepest node's message; on a chain whose deepest cause is a foreign
error it returns that foreign error unchanged; on a non-chain error it
returns it unchanged. -/
theorem c3_rootCause_spec :
    (∀ st, isPureChain st = true → RootCause st = .foreign (deepestMessage st)) ∧
    (∀ st t, terminalForeign st = some t → RootCause st = .foreign t) ∧
    (∀ t, RootCause (.foreign t) = .foreign t) := by
  refine ⟨?_, ?_, fun t => rfl⟩
  · intro st h
    induction st with
    | nilError => simp [isPureChain] at h
    | foreign t => simp [isPureChain] at h
    | stacktrace m c cd f fn l ih =>
        cases c with
        | nilError => rfl
        | foreign t => simp [isPureChain] at h
        | stacktrace m2 c2 cd2 f2 fn2 l2 =>
            have h2 : isPureChain (.stacktrace m2 c2 cd2 f2 fn2 l2) = true := h
            rw [show RootCause (.stacktrace m (.stacktrace m2 c2 cd2 f2 fn2 l2) cd f fn l)
                  = RootCause (.stacktrace m2 c2 cd2 f2 fn2 l2) from rfl,
              show deepestMessage (.stacktrace m (.stacktrace m2 c2 cd2 f2 fn2 l2) cd f fn l)
                  = deepestMessage (.stacktrace m2 c2 cd2 f2 fn2 l2) from rfl]
            exact ih h2
  · intro st t h
    induction st generalizing t with
    | nilError => simp [terminalForeign] at h
    | foreign t2 => simp [terminalForeign] at h
    | stacktrace m c cd f fn l ih =>
        cases c with
        | nilError => simp [terminalForeign] at h
        | foreign t2 =>
            have h2 : t2 = t := by simpa [terminalForeign] using h
            subst h2
            rfl
        | stacktrace m2 c2 cd2 f2 fn2 l2 =>
            have h2 : terminalForeign (.stacktrace m2 c2 cd2 f2 fn2 l2) = some t := h
            rw [show RootCause (.stacktrace m (.stacktrace m2 c2 cd2 f2 fn2 l2) cd f fn l)
                  = RootCause (.stacktrace m2 c2 cd2 f2 fn2 l2) from rfl]
            exact ih t h2

/-- Witness for C3 on concrete chains. -/
theorem c3_rootCause_spec_witness :
    (isPureChain exChainPure = true ∧
      RootCause exChainPure = .foreign (deepestMessage exChainPure)) ∧
    (terminalForeign exChainForeign = some "io fail" ∧
      RootCause exChainForeign = .foreign "io fail") ∧
    RootCause (.foreign "x") = .foreign "x" :=
  ⟨⟨by decide, c3_rootCause_spec.1 exChainPure (by decide)⟩,
   ⟨by decide, c3_rootCause_spec.2.1 exChainForeign "io fail" (by decide)⟩,
   c3_rootCause_spec.2.2 "x"⟩

/-- C4: brief rendering of any chain is the head-to-root list of node
messages, with the terminal foreign cause's text appended, non-empty
segments joined by the separator and empty segments skipped; in
particular the 3-node chains render as "A: B: C" and "A: C", and the
locations stored in those nodes never appear. -/
theorem c4_formatBrief_joins_messages :
    (∀ st, formatBrief st = joinColon (briefSegments st)) ∧
    formatBrief exChainABC = "A: B: C" ∧
    formatBrief exChainAEmptyC = "A: C" := by
  refine ⟨?_, by decide, by decide⟩
  intro st
  cases st with
  | nilError => rfl
  | foreign t => rfl
  | stacktrace m c cd f fn l =>
      rw [show formatBrief (.stacktrace m c cd f fn l)
            = formatBriefCause c (concatBrief "" m) from rfl,
        formatBriefCause_join, concatBrief_concat, concatBrief_empty_left,
        show briefSegments (.stacktrace m c cd f fn l) = m :: causeSegments c from rfl]
      simp only [joinColon]

/-- C5: full rendering emits, for a node whose location is present (File
non-empty), the location line of the exact form given after the node's
message, with the parenthesised function omitted when Function is empty;
in particular the single root node "boom" at x.go:10 (Do) renders as
"boom" followed by that line. -/
theorem c5_formatFull_location_line :
    (∀ (msg file function : String) (line : Int) (str : String),
        file ≠ "" → function ≠ "" →
        formatFullNode msg file function line str =
          newlineIfNeeded (str ++ msg) ++ " --- at " ++ file ++ ":" ++ toString line
            ++ " (" ++ function ++ ") ---") ∧
    (∀ (msg file : String) (line : Int) (str : String),
        file ≠ "" →
        formatFullNode msg file "" line str =
          newlineIfNeeded (str ++ msg) ++ " --- at " ++ file ++ ":"
            ++ toString line ++ " ---") ∧
    formatFull (.stacktrace "boom" .nilError NoCode "x.go" "Do" 10) =
      "boom\n --- at x.go:10 (Do) ---" := by
  refine ⟨?_, ?_, by decide⟩
  · intro msg file function line str hfile hfn
    simp [formatFullNode, hfile, hfn]
  · intro msg file line str hfile
    simp [formatFullNode, hfile]

/-- Witness for C5 at the concrete boom node. -/
theorem c5_formatFull_location_line_witness :
    formatFullNode "boom" "x.go" "Do" 10 "" =
      newlineIfNeeded ("" ++ "boom") ++ " --- at " ++ "x.go" ++ ":"
        ++ toString (10 : Int) ++ " (" ++ "Do" ++ ") ---" ∧
    formatFullNode "boom" "x.go" "" 10 "" =
      newlineIfNeeded ("" ++ "boom") ++ " --- at " ++ "x.go" ++ ":"
        ++ toString (10 : Int) ++ " ---" :=
  ⟨c5_formatFull_location_line.1 "boom" "x.go" "Do" 10 "" (by decide) (by decide),
   c5_formatFull_location_line.2.1 "boom" "x.go" 10 "" (by decide)⟩

/-- C6: in full rendering, a node with a foreign cause emits the marker
followed inline by the cause's own text; a node whose cause is a chain
node emits the marker alone, and only when that node's message is
non-empty; the newline before the marker position is inserted only when
the accumulated output does not already end in one. -/
theorem c6_formatFull_caused_by :
    (∀ (t str : String),
        formatFullCause (.foreign t) str =
          newlineIfNeeded str ++ "Caused by: " ++ t) ∧
    (∀ (m : String) (mc : GoError) (mcd : ErrorCode) (mf mfn : String) (ml : Int)
        (str : String), m ≠ "" →
        formatFullCause (.stacktrace m mc mcd mf mfn ml) str =
          formatFullCause mc
            (formatFullNode m mf mfn ml (newlineIfNeeded str ++ "Caused by: "))) ∧
    (∀ (mc : GoError) (mcd : ErrorCode) (mf mfn : String) (ml : Int) (str : String),
        formatFullCause (.stacktrace "" mc mcd mf mfn ml) str =
          formatFullCause mc (formatFullNode "" mf mfn ml (newlineIfNeeded str))) ∧
    (∀ str, hasSuffixNewline str = true → newlineIfNeeded str = str) ∧
    (∀ str, str ≠ "" → hasSuffixNewline str = false → newlineIfNeeded str = str ++ "\n") := by
  refine ⟨fun t str => rfl, ?_, ?_, ?_, ?_⟩
  · intro m mc mcd mf mfn ml str hm
    simp [formatFullCause, hm]
  · intro mc mcd mf mfn ml str
    simp [formatFullCause]
  · intro str h
    simp [newlineIfNeeded, h]
  · intro str h1 h2
    simp [newlineIfNeeded, h1, h2]

/-- Witness for C6 at concrete inputs. -/
theorem c6_formatFull_caused_by_witness :
    formatFullCause (.foreign "t") "a" = newlineIfNeeded "a" ++ "Caused by: " ++ "t" ∧
    formatFullCause (.stacktrace "B" .nilError 0 "" "" 0) "A" =
      formatFullCause .nilError
        (formatFullNode "B" "" "" 0 (newlineIfNeeded "A" ++ "Caused by: ")) ∧
    formatFullCause (.stacktrace "" .nilError 0 "" "" 0) "A" =
      formatFullCause .nilError (formatFullNode "" "" "" 0 (newlineIfNeeded "A")) ∧
    newlineIfNeeded "a\n" = "a\n" ∧
    newlineIfNeeded "a" = "a" ++ "\n" :=
  ⟨c6_formatFull_caused_by.1 "t" "a",
   c6_formatFull_caused_by.2.1 "B" .nilError 0 "" "" 0 "A" (by decide),
   c6_formatFull_caused_by.2.2.1 .nilError 0 "" "" 0 "A",
   c6_formatFull_caused_by.2.2.2.1 "a\n" (by decide),
   c6_formatFull_caused_by.2.2.2.2 "a" (by decide) (by decide)⟩

/-- C7: the flag '+' without '#' on verb 's' forces full rendering for
every default; the flag '#' without '+' on verb 's' forces brief
rendering for every default; a request carrying neither directive
renders with the process-wide default mode. -/
theorem c7_format_mode_selection :
    (∀ (st : GoError) (d : Format), FormatText st true false 's' d = formatFull st) ∧
    (∀ (st : GoError) (d : Format), FormatText st false true 's' d = formatBrief st) ∧
    (∀ (st : GoError) (p hsh : Bool) (v : Char) (d : Format),
        ¬(p = true ∧ hsh = false ∧ v = 's') →
        ¬(hsh = true ∧ p = false ∧ v = 's') →
        FormatText st p hsh v d = formatByMode d st) := by
  refine ⟨fun st d => by simp [FormatText], fun st d => by simp [FormatText], ?_⟩
  intro st p hsh v d h1 h2
  rw [FormatText, if_neg h1, if_neg h2]

/-- Witness for C7: both directives present on verb 's' falls back to the
default mode. -/
theorem c7_format_mode_selection_witness :
    FormatText exChainABC true false 's' .FormatBrief = formatFull exChainABC ∧
    FormatText exChainABC false true 's' .FormatFull = formatBrief exChainABC ∧
    FormatText exChainABC true true 's' .FormatFull = formatByMode .FormatFull exChainABC :=
  ⟨c7_format_mode_selection.1 exChainABC .FormatBrief,
   c7_format_mode_selection.2.1 exChainABC .FormatFull,
   c7_format_mode_selection.2.2 exChainABC true true 's' .FormatFull
     (by decide) (by decide)⟩

/-- C8: the exit-code mapping of a node is 1 when its code is NoCode and
the numeric value of the code otherwise (in particular 42 maps to 42,
witnessed below). -/
theorem c8_exitCode_mapping (m : String) (c : GoError) (cd : ErrorCode)
    (f fn : String) (l : Int) :
    (cd = NoCode → ExitCode (.stacktrace m c cd f fn l) = 1) ∧
    (cd ≠ NoCode → ExitCode (.stacktrace m c cd f fn l) = Int.ofNat cd) := by
  constructor
  · intro h
    simp [ExitCode, h]
  · intro h
    simp [ExitCode, h]

/-- Witness for C8: NoCode maps to 1 and code 42 maps to 42. -/
theorem c8_exitCode_mapping_witness :
    ExitCode (.stacktrace "m" .nilError NoCode "" "" 0) = 1 ∧
    ExitCode (.stacktrace "m" .nilError 42 "" "" 0) = 42 :=
  ⟨(c8_exitCode_mapping "m" .nilError NoCode "" "" 0).1 rfl,
   (c8_exitCode_mapping "m" .nilError 42 "" "" 0).2 (by decide)⟩

/-- C9: wrapping never alters the wrapped cause — the new node stores the
cause value itself, which GetCause returns unchanged, so every
observation of the original error is as before the wrap; concretely the
two scenarios of the claim: propagate over a code-5 root sees and
preserves code 5, and propagateWithCode 7 over a codeless root yields 7
while the root still reports NoCode. -/
theorem c9_wrap_preserves_cause (k1 k2 : CallerInfo) (e : GoError) (msg : String)
    (code : ErrorCode) :
    (GetCode (Propagate (NewErrorWithCode 5 "root" k1) "wrap" k2) = 5 ∧
      GetCode (NewErrorWithCode 5 "root" k1) = 5) ∧
    (GetCode (PropagateWithCode (NewError "root" k1) 7 "wrap" k2) = 7 ∧
      GetCode (NewError "root" k1) = NoCode) ∧
    (e ≠ .nilError →
      GetCause (Propagate e msg k2) = e ∧
        GetCause (PropagateWithCode e code msg k2) = e) := by
  refine ⟨⟨?_, ?_⟩, ⟨?_, ?_⟩, ?_⟩
  · simp only [NewErrorWithCode, Propagate]
    rw [if_neg (create_ne_nilError _ _ _ _), getCode_create, getCode_create]
    simp [NoCode]
  · simp only [NewErrorWithCode]
    rw [getCode_create]
    simp [NoCode]
  · simp only [NewError, PropagateWithCode]
    rw [if_neg (create_ne_nilError _ _ _ _), getCode_create]
    simp [NoCode]
  · simp only [NewError]
    rw [getCode_create]
    simp [GetCode]
  · intro he
    constructor
    · simp only [Propagate]
      rw [if_neg he, getCause_create]
    · simp only [PropagateWithCode]
      rw [if_neg he, getCause_create]

/-- Witness for C9 with concrete call-site outcomes and a concrete
wrapped error. -/
theorem c9_wrap_preserves_cause_witness :
    (GetCode (Propagate (NewErrorWithCode 5 "root" none) "wrap" none) = 5 ∧
      GetCode (NewErrorWithCode 5 "root" none) = 5) ∧
    (GetCode (PropagateWithCode (NewError "root" none) 7 "wrap" none) = 7 ∧
      GetCode (NewError "root" none) = NoCode) ∧
    (GetCause (Propagate (.foreign "x") "m" none) = .foreign "x" ∧
      GetCause (PropagateWithCode (.foreign "x") 9 "m" none) = .foreign "x") :=
  ⟨(c9_wrap_preserves_cause none none (.foreign "x") "m" 9).1,
   (c9_wrap_preserves_cause none none (.foreign "x") "m" 9).2.1,
   (c9_wrap_preserves_cause none none (.foreign "x") "m" 9).2.2 (by decide)⟩

/-- C10: the claim that GetMessage returns the stored message text exactly
fails on the code for messages containing a percent sign, because
GetMessage passes the stored message to Errorf as a format string: the
node built by NewError from the format "100%%" stores the message "100%",
and GetMessage on it yields the text "100%!(NOVERB)", not "100%". -/
theorem c10_getMessage_percent_mangled :
    NewError "100%%" none = .stacktrace "100%" .nilError NoCode "" "" 0 ∧
    GetMessage (NewError "100%%" none) = .foreign "100%!(NOVERB)" ∧
    ("100%!(NOVERB)" : String) ≠ "100%" := by
  exact ⟨by decide, by decide, by decide⟩
